import Mathlib

/-!
Shallow embedding of `src/main.rs` of restic-sync: a one-way replicator
between two restic REST repositories.  The HTTP transport (reqwest with
retry middleware) is modelled as an oracle `Oracle : Nat → Request → Response`
answering the i-th request issued during a run; every engine operation
threads a state `St` counting requests and recording the trace of
request/response pairs, and returns `Except Err α` mirroring
`anyhow::Result`.  The external crates `sha2` (SHA-256) and `serde_json`
(listing-body parsing) are abstracted as function parameters `sha` and
`parse`; the lowercase hex rendering `format!("{:x}", digest)` is embedded
concretely as `hexLower`.
-/

namespace ResticSync

/-- HTTP method of a request issued by the engine. -/
inductive Method where
  | GET
  | POST
  | DELETE
deriving DecidableEq, Repr

/-- A request issued by the engine: method, URL, and body bytes
(empty for GET/DELETE). -/
structure Request where
  method : Method
  url : String
  body : List Nat
deriving DecidableEq, Repr

/-- A transport response: status code and body bytes. -/
structure Response where
  status : Nat
  body : List Nat
deriving DecidableEq, Repr

/-- Run state: number of requests issued so far and the trace of
request/response pairs, in issue order. -/
structure St where
  n : Nat
  trace : List (Request × Response)
deriving DecidableEq, Repr

/-- The transport oracle: the response the HTTP layer gives to the i-th
request of the run (retries happen below this interface). -/
abbrev Oracle : Type := Nat → Request → Response

/-- Issue one request: query the oracle, bump the counter, append to the
trace.  Models one `client.{get,post,delete}(..).send().await?`. -/
def sendR (o : Oracle) (req : Request) (s : St) : Response × St :=
  let resp := o s.n req
  (resp, ⟨s.n + 1, s.trace ++ [(req, resp)]⟩)

/-- The `bail!` sites of `main.rs`, each carrying the data interpolated
into its error message. -/
inductive Err where
  | initFailed (status : Nat)
  | fetchConfigFailed (status : Nat)
  | configMismatch
  | readDestConfigFailed (status : Nat)
  | saveConfigFailed (status : Nat)
  | listFailed (url : String) (status : Nat)
  | parseFailed (url : String) (fileType : String)
  | downloadFailed (url : String) (status : Nat)
  | blobVerificationFailed (name : String) (hashHex : String)
  | uploadFailed (url : String) (status : Nat)
  | deleteFailed (url : String) (status : Nat)
deriving DecidableEq, Repr

/-- One entry of the v2 listing response (`struct FileInfo`). -/
structure FileInfo where
  name : String
  size : Nat
deriving DecidableEq, Repr

/-- `StatusCode::is_success()`: 2xx. -/
def is_success (status : Nat) : Bool := 200 ≤ status && status < 300

/-- `StatusCode::NOT_FOUND`. -/
def NOT_FOUND : Nat := 404

/-- `StatusCode::FORBIDDEN`. -/
def FORBIDDEN : Nat := 403

/-- `const FILE_TYPES`. -/
def FILE_TYPES : List String := ["data", "keys", "locks", "snapshots", "index"]

/-- `fn normalize_url`. -/
def normalize_url (url : String) : String :=
  if url.endsWith "/" then url else url ++ "/"

/-- `format!("{:x}", _)` digit for one nibble: lowercase hex. -/
def hexDigit (n : Nat) : Char :=
  if n < 10 then Char.ofNat (48 + n) else Char.ofNat (87 + n)

/-- One byte rendered as two lowercase hex digits. -/
def byteHex (b : Nat) : List Char := [hexDigit (b / 16 % 16), hexDigit (b % 16)]

/-- `format!("{:x}", digest)`: the whole digest as a lowercase hex string. -/
def hexLower (bytes : List Nat) : String := String.mk (bytes.flatMap byteHex)

/-- `async fn init_dest`. -/
def init_dest (o : Oracle) (dest : String) (s : St) : Except Err Unit × St :=
  let url := dest ++ "?create=true"
  let (resp, s) := sendR o ⟨Method.POST, url, []⟩ s
  if !(is_success resp.status) then
    (Except.error (Err.initFailed resp.status), s)
  else
    (Except.ok (), s)

/-- `async fn sync_config`. -/
def sync_config (o : Oracle) (source dest : String) (s : St) :
    Except Err Unit × St :=
  let source_url := source ++ "config"
  let dest_url := dest ++ "config"
  let (resp, s) := sendR o ⟨Method.GET, source_url, []⟩ s
  if !(is_success resp.status) then
    if resp.status = NOT_FOUND then (Except.ok (), s)
    else (Except.error (Err.fetchConfigFailed resp.status), s)
  else
    let config_bytes := resp.body
    let (post_resp, s) := sendR o ⟨Method.POST, dest_url, config_bytes⟩ s
    if !(is_success post_resp.status) then
      if post_resp.status = FORBIDDEN then
        let (dest_get, s) := sendR o ⟨Method.GET, dest_url, []⟩ s
        if is_success dest_get.status then
          let dest_bytes := dest_get.body
          if dest_bytes ≠ config_bytes then
            (Except.error Err.configMismatch, s)
          else
            (Except.ok (), s)
        else
          (Except.error (Err.readDestConfigFailed dest_get.status), s)
      else
        (Except.error (Err.saveConfigFailed post_resp.status), s)
    else
      (Except.ok (), s)

/-- `async fn list_files`; `parse` stands for
`serde_json::from_str::<Vec<FileInfo>>`. -/
def list_files (o : Oracle) (parse : List Nat → Option (List FileInfo))
    (repo file_type : String) (s : St) : Except Err (List FileInfo) × St :=
  let url := repo ++ file_type ++ "/"
  let (resp, s) := sendR o ⟨Method.GET, url, []⟩ s
  if !(is_success resp.status) then
    if resp.status = NOT_FOUND then (Except.ok [], s)
    else (Except.error (Err.listFailed url resp.status), s)
  else
    match parse resp.body with
    | some items => (Except.ok items, s)
    | none => (Except.error (Err.parseFailed url file_type), s)

/-- One `HashMap::insert`: replace the value of an existing key, else
append the binding. -/
def insertMap (m : List (String × Nat)) (k : String) (v : Nat) :
    List (String × Nat) :=
  if m.any (fun p => p.1 == k) then
    m.map (fun p => if p.1 == k then (k, v) else p)
  else
    m ++ [(k, v)]

/-- `items.into_iter().map(|item| (item.name, item.size)).collect()` into a
`HashMap`, as an association list: bindings are inserted in response
order, later entries overwriting earlier ones. -/
def buildMap (items : List FileInfo) : List (String × Nat) :=
  items.foldl (fun m item => insertMap m item.name item.size) []

/-- `HashMap::get` on the association list. -/
def lookupMap (m : List (String × Nat)) (k : String) : Option Nat :=
  (m.find? (fun p => p.1 == k)).map Prod.snd

/-- The `to_download` loop of `sync_type`: every source name absent from
the destination map or listed there with a different size. -/
def to_download (source_map dest_map : List (String × Nat)) : List String :=
  source_map.filterMap (fun p =>
    match lookupMap dest_map p.1 with
    | some dest_size => if p.2 ≠ dest_size then some p.1 else none
    | none => some p.1)

/-- The `to_delete` loop of `sync_type`: every destination key absent from
the source map. -/
def to_delete_list (source_map dest_map : List (String × Nat)) : List String :=
  (dest_map.map Prod.fst).filter (fun name =>
    !(source_map.any (fun p => p.1 == name)))

/-- `to_delete` as `sync_type` leaves it: empty unless pruning. -/
def planned_to_delete (source_map dest_map : List (String × Nat))
    (prune : Bool) : List String :=
  if prune then to_delete_list source_map dest_map else []

/-- `async fn sync_file`; `sha` stands for the SHA-256 digest of the
`sha2` crate, rendered lowercase-hex by `hexLower`. -/
def sync_file (o : Oracle) (sha : List Nat → List Nat)
    (source dest file_type name : String) (s : St) : Except Err Unit × St :=
  let source_url := source ++ file_type ++ "/" ++ name
  let dest_url := dest ++ file_type ++ "/" ++ name
  let (resp, s) := sendR o ⟨Method.GET, source_url, []⟩ s
  if !(is_success resp.status) then
    (Except.error (Err.downloadFailed source_url resp.status), s)
  else
    let bytes := resp.body
    let hash_hex := hexLower (sha bytes)
    if hash_hex ≠ name then
      (Except.error (Err.blobVerificationFailed name hash_hex), s)
    else
      let (post_resp, s) := sendR o ⟨Method.POST, dest_url, bytes⟩ s
      if !(is_success post_resp.status) then
        (Except.error (Err.uploadFailed dest_url post_resp.status), s)
      else
        (Except.ok (), s)

/-- `async fn delete_file`. -/
def delete_file (o : Oracle) (dest file_type name : String) (s : St) :
    Except Err Unit × St :=
  let url := dest ++ file_type ++ "/" ++ name
  let (resp, s) := sendR o ⟨Method.DELETE, url, []⟩ s
  if !(is_success resp.status) then
    (Except.error (Err.deleteFailed url resp.status), s)
  else
    (Except.ok (), s)

/-- The `for name in to_download` loop of `sync_type`: sequential, first
error aborts. -/
def sync_files (o : Oracle) (sha : List Nat → List Nat)
    (source dest file_type : String) (names : List String) (s : St) :
    Except Err Unit × St :=
  match names with
  | [] => (Except.ok (), s)
  | name :: rest =>
    match sync_file o sha source dest file_type name s with
    | (Except.error e, s) => (Except.error e, s)
    | (Except.ok _, s) => sync_files o sha source dest file_type rest s

/-- The `for name in to_delete` loop of `sync_type`: sequential, first
error aborts. -/
def delete_files (o : Oracle) (dest file_type : String)
    (names : List String) (s : St) : Except Err Unit × St :=
  match names with
  | [] => (Except.ok (), s)
  | name :: rest =>
    match delete_file o dest file_type name s with
    | (Except.error e, s) => (Except.error e, s)
    | (Except.ok _, s) => delete_files o dest file_type rest s

/-- `async fn sync_type`. -/
def sync_type (o : Oracle) (sha : List Nat → List Nat)
    (parse : List Nat → Option (List FileInfo))
    (source dest file_type : String) (prune : Bool) (s : St) :
    Except Err Unit × St :=
  match list_files o parse source file_type s with
  | (Except.error e, s) => (Except.error e, s)
  | (Except.ok source_items, s) =>
    match list_files o parse dest file_type s with
    | (Except.error e, s) => (Except.error e, s)
    | (Except.ok dest_items, s) =>
      let source_map := buildMap source_items
      let dest_map := buildMap dest_items
      let to_dl := to_download source_map dest_map
      let to_del := planned_to_delete source_map dest_map prune
      match sync_files o sha source dest file_type to_dl s with
      | (Except.error e, s) => (Except.error e, s)
      | (Except.ok _, s) =>
        if prune then delete_files o dest file_type to_del s
        else (Except.ok (), s)

/-- The `for file_type in FILE_TYPES` loop of `run_sync`: sequential,
first error aborts. -/
def sync_types (o : Oracle) (sha : List Nat → List Nat)
    (parse : List Nat → Option (List FileInfo))
    (source dest : String) (types : List String) (prune : Bool) (s : St) :
    Except Err Unit × St :=
  match types with
  | [] => (Except.ok (), s)
  | t :: rest =>
    match sync_type o sha parse source dest t prune s with
    | (Except.error e, s) => (Except.error e, s)
    | (Except.ok _, s) => sync_types o sha parse source dest rest prune s

/-- `async fn run_sync`: the engine entry point, starting from a fresh
transport state. -/
def run_sync (o : Oracle) (sha : List Nat → List Nat)
    (parse : List Nat → Option (List FileInfo))
    (source dest : String) (prune : Bool) : Except Err Unit × St :=
  let src := normalize_url source
  let dst := normalize_url dest
  match init_dest o dst ⟨0, []⟩ with
  | (Except.error e, s) => (Except.error e, s)
  | (Except.ok _, s) =>
    match sync_config o src dst s with
    | (Except.error e, s) => (Except.error e, s)
    | (Except.ok _, s) => sync_types o sha parse src dst FILE_TYPES prune s

/-- The errors `bail!`-ed inside `sync_file` (an object transfer), as
opposed to listing or delete errors. -/
def isTransferErr : Err → Bool
  | Err.downloadFailed _ _ => true
  | Err.blobVerificationFailed _ _ => true
  | Err.uploadFailed _ _ => true
  | _ => false

/-! ### Association-map lemmas -/

theorem find?_cons_true {α : Type} (f : α → Bool) (a : α) (t : List α)
    (h : f a = true) : (a :: t).find? f = some a := by
  simp [List.find?, h]

theorem find?_cons_false {α : Type} (f : α → Bool) (a : α) (t : List α)
    (h : f a = false) : (a :: t).find? f = t.find? f := by
  simp [List.find?, h]

theorem any_fst_iff (m : List (String × Nat)) (k : String) :
    m.any (fun p => p.1 == k) = true ↔ k ∈ m.map Prod.fst := by
  rw [List.any_eq_true]
  constructor
  · rintro ⟨p, hp, hpk⟩
    exact List.mem_map.mpr ⟨p, hp, beq_iff_eq.mp hpk⟩
  · intro h
    rcases List.mem_map.mp h with ⟨p, hp, hfst⟩
    exact ⟨p, hp, beq_iff_eq.mpr hfst⟩

theorem mem_of_lookupMap_eq_some {m : List (String × Nat)} {k : String}
    {v : Nat} (h : lookupMap m k = some v) : (k, v) ∈ m := by
  unfold lookupMap at h
  cases hfind : m.find? (fun p => p.1 == k) with
  | none => rw [hfind] at h; simp at h
  | some p =>
    rw [hfind] at h
    have hv : p.2 = v := by simpa using h
    have hpred := List.find?_some hfind
    simp only [beq_iff_eq] at hpred
    have hp1 : p.1 = k := hpred
    have hmem := List.mem_of_find?_eq_some hfind
    rcases p with ⟨a, b⟩
    simp only at hp1 hv
    rw [hp1, hv] at hmem
    exact hmem

theorem lookupMap_isSome_iff (m : List (String × Nat)) (k : String) :
    (lookupMap m k).isSome = true ↔ k ∈ m.map Prod.fst := by
  constructor
  · intro h
    rcases Option.isSome_iff_exists.mp h with ⟨v, hv⟩
    exact List.mem_map.mpr ⟨(k, v), mem_of_lookupMap_eq_some hv, rfl⟩
  · intro h
    rcases List.mem_map.mp h with ⟨p, hp, hfst⟩
    have hfs : (m.find? (fun p => p.1 == k)).isSome = true :=
      List.find?_isSome.mpr ⟨p, hp, beq_iff_eq.mpr hfst⟩
    unfold lookupMap
    cases hfind : m.find? (fun p => p.1 == k) with
    | none => rw [hfind] at hfs; simp at hfs
    | some q => simp

theorem lookupMap_eq_none_iff (m : List (String × Nat)) (k : String) :
    lookupMap m k = none ↔ k ∉ m.map Prod.fst := by
  constructor
  · intro h hk
    have hs := (lookupMap_isSome_iff m k).mpr hk
    rw [h] at hs
    simp at hs
  · intro hk
    cases hl : lookupMap m k with
    | none => rfl
    | some v =>
      exact absurd ((lookupMap_isSome_iff m k).mp (by rw [hl]; rfl)) hk

theorem lookupMap_eq_some_of_mem {m : List (String × Nat)} {k : String}
    {v : Nat} (hnd : (m.map Prod.fst).Nodup) (h : (k, v) ∈ m) :
    lookupMap m k = some v := by
  induction m with
  | nil => cases h
  | cons p t ih =>
    rw [List.map_cons, List.nodup_cons] at hnd
    rcases List.mem_cons.mp h with heq | htail
    · rw [← heq]
      unfold lookupMap
      rw [List.find?_cons_of_pos _ (by simp)]
      rfl
    · have hk : k ∈ t.map Prod.fst := List.mem_map.mpr ⟨(k, v), htail, rfl⟩
      have hp : (fun q : String × Nat => q.1 == k) p = false := by
        show (p.1 == k) = false
        rw [beq_eq_false_iff_ne]
        intro hc
        exact hnd.1 (by rw [hc]; exact hk)
      unfold lookupMap
      rw [find?_cons_false (fun q : String × Nat => q.1 == k) p t hp]
      exact ih hnd.2 htail

theorem mem_iff_lookupMap {m : List (String × Nat)} {k : String} {v : Nat}
    (hnd : (m.map Prod.fst).Nodup) : (k, v) ∈ m ↔ lookupMap m k = some v :=
  ⟨lookupMap_eq_some_of_mem hnd, mem_of_lookupMap_eq_some⟩

theorem find?_replace_of_ne (m : List (String × Nat)) (k name : String)
    (v : Nat) (hne : k ≠ name) :
    (m.map (fun p => if p.1 == k then (k, v) else p)).find?
        (fun p => p.1 == name)
      = m.find? (fun p => p.1 == name) := by
  induction m with
  | nil => rfl
  | cons p t ih =>
    simp only [List.map_cons]
    by_cases hpk : (p.1 == k) = true
    · rw [if_pos hpk]
      have h1 : (fun q : String × Nat => q.1 == name) (k, v) = false := by
        show ((k : String) == name) = false
        rw [beq_eq_false_iff_ne]
        exact hne
      have h2 : (fun q : String × Nat => q.1 == name) p = false := by
        show (p.1 == name) = false
        rw [beq_iff_eq.mp hpk, beq_eq_false_iff_ne]
        exact hne
      rw [find?_cons_false (fun q : String × Nat => q.1 == name) (k, v) _ h1,
        find?_cons_false (fun q : String × Nat => q.1 == name) p t h2]
      exact ih
    · rw [if_neg hpk]
      by_cases hpn : (p.1 == name) = true
      · have hb : (fun q : String × Nat => q.1 == name) p = true := hpn
        rw [find?_cons_true (fun q : String × Nat => q.1 == name) p _ hb,
          find?_cons_true (fun q : String × Nat => q.1 == name) p t hb]
      · have hb : (fun q : String × Nat => q.1 == name) p = false := by
          show (p.1 == name) = false
          simp only [Bool.not_eq_true] at hpn
          exact hpn
        rw [find?_cons_false (fun q : String × Nat => q.1 == name) p _ hb,
          find?_cons_false (fun q : String × Nat => q.1 == name) p t hb]
        exact ih

theorem find?_replace_self (m : List (String × Nat)) (k : String) (v : Nat)
    (h : m.any (fun p => p.1 == k) = true) :
    (m.map (fun p => if p.1 == k then (k, v) else p)).find?
        (fun p => p.1 == k)
      = some (k, v) := by
  induction m with
  | nil => simp at h
  | cons p t ih =>
    simp only [List.map_cons]
    by_cases hpk : (p.1 == k) = true
    · rw [if_pos hpk]
      rw [List.find?_cons_of_pos _ (by simp)]
    · rw [if_neg hpk]
      have hbf : (fun q : String × Nat => q.1 == k) p = false := by
        show (p.1 == k) = false
        simp only [Bool.not_eq_true] at hpk
        exact hpk
      rw [find?_cons_false (fun q : String × Nat => q.1 == k) p _ hbf]
      apply ih
      cases hb : (p.1 == k) with
      | true => exact absurd hb hpk
      | false =>
        rw [List.any_cons, hb, Bool.false_or] at h
        exact h

theorem lookupMap_insertMap (m : List (String × Nat)) (k : String) (v : Nat)
    (name : String) :
    lookupMap (insertMap m k v) name
      = if k = name then some v else lookupMap m name := by
  unfold insertMap
  by_cases hany : m.any (fun p => p.1 == k) = true
  · rw [if_pos hany]
    by_cases hk : k = name
    · rw [if_pos hk, ← hk]
      unfold lookupMap
      rw [find?_replace_self m k v hany]
      rfl
    · rw [if_neg hk]
      unfold lookupMap
      rw [find?_replace_of_ne m k name v hk]
  · rw [if_neg hany]
    by_cases hk : k = name
    · rw [if_pos hk]
      unfold lookupMap
      rw [List.find?_append]
      have hnone : m.find? (fun p => p.1 == name) = none := by
        rw [List.find?_eq_none]
        intro p hp hc
        apply hany
        rw [List.any_eq_true]
        refine ⟨p, hp, ?_⟩
        rw [beq_iff_eq] at hc ⊢
        rw [hc, hk]
      rw [hnone]
      rw [List.find?_cons_of_pos _ (by simp [hk])]
      rfl
    · unfold lookupMap
      rw [List.find?_append]
      have hlast : (([(k, v)] : List (String × Nat)).find?
          (fun p => p.1 == name)) = none := by
        rw [List.find?_cons_of_neg _ (by simp [hk])]
        rfl
      rw [hlast, if_neg hk, Option.or_none]

theorem keys_insertMap_of_any (m : List (String × Nat)) (k : String)
    (v : Nat) (h : m.any (fun p => p.1 == k) = true) :
    (insertMap m k v).map Prod.fst = m.map Prod.fst := by
  unfold insertMap
  rw [if_pos h, List.map_map]
  apply List.map_congr_left
  intro p _
  by_cases hp : (p.1 == k) = true
  · simp only [Function.comp_apply, if_pos hp]
    exact (beq_iff_eq.mp hp).symm
  · simp only [Function.comp_apply, if_neg hp]

theorem keys_insertMap_nodup (m : List (String × Nat)) (k : String) (v : Nat)
    (hnd : (m.map Prod.fst).Nodup) :
    ((insertMap m k v).map Prod.fst).Nodup := by
  by_cases hany : m.any (fun p => p.1 == k) = true
  · rw [keys_insertMap_of_any m k v hany]
    exact hnd
  · unfold insertMap
    rw [if_neg hany, List.map_append, List.nodup_append]
    refine ⟨hnd, List.nodup_singleton _, ?_⟩
    intro a ha hb
    simp only [List.map_cons, List.map_nil, List.mem_singleton] at hb
    rw [hb] at ha
    exact hany ((any_fst_iff m k).mpr ha)

theorem buildMap_keys_nodup (items : List FileInfo) :
    ((buildMap items).map Prod.fst).Nodup := by
  have key : ∀ (l : List FileInfo) (m : List (String × Nat)),
      (m.map Prod.fst).Nodup →
      ((l.foldl (fun m item => insertMap m item.name item.size) m).map
        Prod.fst).Nodup := by
    intro l
    induction l with
    | nil => intro m hm; exact hm
    | cons i t ih =>
      intro m hm
      exact ih _ (keys_insertMap_nodup m i.name i.size hm)
  exact key items [] (by simp)

theorem lookupMap_foldl_insert (items : List FileInfo) :
    ∀ (m : List (String × Nat)) (name : String),
    lookupMap (items.foldl (fun m item => insertMap m item.name item.size) m)
        name
      = ((items.reverse.find? (fun i => i.name == name)).map
          FileInfo.size).or (lookupMap m name) := by
  induction items with
  | nil =>
    intro m name
    simp
  | cons i t ih =>
    intro m name
    simp only [List.foldl_cons, List.reverse_cons, List.find?_append]
    rw [ih, lookupMap_insertMap]
    by_cases hk : i.name = name
    · rw [if_pos hk]
      have h1 : (([i] : List FileInfo).find? (fun j => j.name == name))
          = some i := List.find?_cons_of_pos _ (by simp [hk])
      rw [h1]
      cases hf : t.reverse.find? (fun j => j.name == name) with
      | none => rfl
      | some j => rfl
    · rw [if_neg hk]
      have h1 : (([i] : List FileInfo).find? (fun j => j.name == name))
          = none := by
        rw [List.find?_cons_of_neg _ (by simp [hk])]
        rfl
      rw [h1]
      cases hf : t.reverse.find? (fun j => j.name == name) with
      | none => rfl
      | some j => rfl

theorem lookupMap_buildMap (items : List FileInfo) (name : String) :
    lookupMap (buildMap items) name
      = (items.reverse.find? (fun i => i.name == name)).map FileInfo.size := by
  unfold buildMap
  rw [lookupMap_foldl_insert]
  cases hf : items.reverse.find? (fun i => i.name == name) with
  | none => rfl
  | some j => rfl

theorem mem_to_download_iff (sm dm : List (String × Nat)) (n : String)
    (hnd : (sm.map Prod.fst).Nodup) :
    n ∈ to_download sm dm
      ↔ ∃ sz, lookupMap sm n = some sz ∧ lookupMap dm n ≠ some sz := by
  unfold to_download
  rw [List.mem_filterMap]
  constructor
  · rintro ⟨p, hp, hf⟩
    rcases hcase : lookupMap dm p.1 with _ | dz
    · rw [hcase] at hf
      simp only [Option.some.injEq] at hf
      refine ⟨p.2, ?_, ?_⟩
      · rw [← hf]
        exact lookupMap_eq_some_of_mem hnd (by rw [Prod.mk.eta]; exact hp)
      · rw [← hf, hcase]
        simp
    · rw [hcase] at hf
      have hred : (match some dz with
          | some dest_size => if p.2 ≠ dest_size then some p.1 else none
          | none => some p.1)
          = (if p.2 ≠ dz then some p.1 else none) := rfl
      rw [hred] at hf
      by_cases hsz : p.2 ≠ dz
      · rw [if_pos hsz] at hf
        simp only [Option.some.injEq] at hf
        refine ⟨p.2, ?_, ?_⟩
        · rw [← hf]
          exact lookupMap_eq_some_of_mem hnd (by rw [Prod.mk.eta]; exact hp)
        · rw [← hf, hcase]
          intro hc
          simp only [Option.some.injEq] at hc
          exact hsz hc.symm
      · rw [if_neg hsz] at hf
        cases hf
  · rintro ⟨sz, hsome, hne⟩
    refine ⟨(n, sz), mem_of_lookupMap_eq_some hsome, ?_⟩
    show (match lookupMap dm n with
      | some dest_size => if sz ≠ dest_size then some n else none
      | none => some n) = some n
    rcases hcase : lookupMap dm n with _ | dz
    · rfl
    · have hsz : sz ≠ dz := by
        intro h
        rw [h] at hne
        exact hne hcase
      have hred : (match (some dz : Option Nat) with
          | some dest_size => if sz ≠ dest_size then some n else none
          | none => some n)
          = (if sz ≠ dz then some n else none) := rfl
      rw [hred, if_pos hsz]

/-- C3.  Diff correctness without pruning: for listing snapshots `sm`
(source) and `dm` (destination), `to_download` contains exactly the names
bound in `sm` whose binding in `dm` is absent or carries a different size,
and with `prune = false` the planned delete list is empty. -/
theorem diff_correct_no_prune (sm dm : List (String × Nat))
    (hnd : (sm.map Prod.fst).Nodup) :
    (∀ n, n ∈ to_download sm dm
        ↔ ∃ sz, lookupMap sm n = some sz ∧ lookupMap dm n ≠ some sz) ∧
    planned_to_delete sm dm false = [] :=
  ⟨fun n => mem_to_download_iff sm dm n hnd, rfl⟩

/-- Witness for C3 at a concrete snapshot pair: `"a"` (absent at the
destination) and `"b"` (size mismatch) are planned for transfer, `"c"`
(equal size) is not, and nothing is planned for deletion. -/
theorem diff_correct_no_prune_witness :
    (("a" ∈ to_download [("a", 1), ("b", 2), ("c", 3)] [("b", 9), ("c", 3)]
        ↔ ∃ sz, lookupMap [("a", 1), ("b", 2), ("c", 3)] "a" = some sz
            ∧ lookupMap [("b", 9), ("c", 3)] "a" ≠ some sz) ∧
      ("c" ∈ to_download [("a", 1), ("b", 2), ("c", 3)] [("b", 9), ("c", 3)]
        ↔ ∃ sz, lookupMap [("a", 1), ("b", 2), ("c", 3)] "c" = some sz
            ∧ lookupMap [("b", 9), ("c", 3)] "c" ≠ some sz)) ∧
    planned_to_delete [("a", 1), ("b", 2), ("c", 3)] [("b", 9), ("c", 3)]
        false = [] :=
  ⟨⟨(diff_correct_no_prune [("a", 1), ("b", 2), ("c", 3)] [("b", 9), ("c", 3)]
      (by decide)).1 "a",
    (diff_correct_no_prune [("a", 1), ("b", 2), ("c", 3)] [("b", 9), ("c", 3)]
      (by decide)).1 "c"⟩,
   (diff_correct_no_prune [("a", 1), ("b", 2), ("c", 3)] [("b", 9), ("c", 3)]
      (by decide)).2⟩

/-- C4.  Prune correctness: with `prune = true` the planned delete list
contains exactly the names bound in the destination snapshot and absent
from the source snapshot; a name bound in the source snapshot is never
deleted, whatever the sizes. -/
theorem prune_correct (sm dm : List (String × Nat)) :
    (∀ n, n ∈ planned_to_delete sm dm true
        ↔ (lookupMap dm n).isSome = true ∧ lookupMap sm n = none) ∧
    (∀ n, (lookupMap sm n).isSome = true →
      n ∉ planned_to_delete sm dm true) := by
  have key : ∀ n, n ∈ planned_to_delete sm dm true
      ↔ (lookupMap dm n).isSome = true ∧ lookupMap sm n = none := by
    intro n
    unfold planned_to_delete to_delete_list
    rw [if_pos rfl, List.mem_filter]
    rw [lookupMap_isSome_iff, lookupMap_eq_none_iff]
    constructor
    · rintro ⟨hmem, hpred⟩
      refine ⟨hmem, ?_⟩
      intro hk
      have := (any_fst_iff sm n).mpr hk
      rw [this] at hpred
      cases hpred
    · rintro ⟨hmem, hk⟩
      refine ⟨hmem, ?_⟩
      cases hany : sm.any (fun p => p.1 == n) with
      | true => exact absurd ((any_fst_iff sm n).mp hany) hk
      | false => rfl
  refine ⟨key, ?_⟩
  intro n hs hmem
  rcases (key n).mp hmem with ⟨_, hnone⟩
  rw [hnone] at hs
  simp at hs

/-- Witness for C4 at a concrete snapshot pair: `"x"` (destination-only)
is planned for deletion; `"b"`, present in both snapshots with differing
sizes, is not. -/
theorem prune_correct_witness :
    ("x" ∈ planned_to_delete [("b", 2)] [("b", 9), ("x", 7)] true
      ↔ (lookupMap [("b", 9), ("x", 7)] "x").isSome = true
          ∧ lookupMap [("b", 2)] "x" = none) ∧
    "b" ∉ planned_to_delete [("b", 2)] [("b", 9), ("x", 7)] true :=
  ⟨(prune_correct [("b", 2)] [("b", 9), ("x", 7)]).1 "x",
   (prune_correct [("b", 2)] [("b", 9), ("x", 7)]).2 "b" (by decide)⟩

/-- C6.  Planner idempotence: when the destination snapshot binds exactly
the same names to the same sizes as the source snapshot (an
already-synchronized destination), the planner outputs no transfers and no
deletions, for either value of the prune flag. -/
theorem planner_idempotent (sm dm : List (String × Nat)) (prune : Bool)
    (hnd : (sm.map Prod.fst).Nodup)
    (hext : ∀ n, lookupMap sm n = lookupMap dm n) :
    to_download sm dm = [] ∧ planned_to_delete sm dm prune = [] := by
  constructor
  · unfold to_download
    rw [List.filterMap_eq_nil_iff]
    intro p hp
    have hself : lookupMap sm p.1 = some p.2 :=
      lookupMap_eq_some_of_mem hnd (by rw [Prod.mk.eta]; exact hp)
    have hdm : lookupMap dm p.1 = some p.2 := by rw [← hext]; exact hself
    show (match lookupMap dm p.1 with
      | some dest_size => if p.2 ≠ dest_size then some p.1 else none
      | none => some p.1) = none
    rw [hdm]
    simp
  · unfold planned_to_delete
    cases prune with
    | false => rfl
    | true =>
      rw [if_pos rfl]
      unfold to_delete_list
      rw [List.filter_eq_nil_iff]
      intro n hn
      have hdm : (lookupMap dm n).isSome = true :=
        (lookupMap_isSome_iff dm n).mpr hn
      have hsm : (lookupMap sm n).isSome = true := by rw [hext]; exact hdm
      have hmem : n ∈ sm.map Prod.fst := (lookupMap_isSome_iff sm n).mp hsm
      have hany : sm.any (fun p => p.1 == n) = true := (any_fst_iff sm n).mpr hmem
      rw [hany]
      simp

/-- Witness for C6: planning a snapshot against an equal snapshot yields
no transfers and no deletions. -/
theorem planner_idempotent_witness :
    to_download [("a", 1), ("b", 2)] [("a", 1), ("b", 2)] = [] ∧
    planned_to_delete [("a", 1), ("b", 2)] [("a", 1), ("b", 2)] true = [] :=
  planner_idempotent [("a", 1), ("b", 2)] [("a", 1), ("b", 2)] true
    (by decide) (fun _ => rfl)

/-- C10.  Duplicate listing entries resolve to the last occurrence: the
snapshot map built from a listing response binds a name to the size of the
last entry of that name in response order, and transfer-plan membership is
determined by the built map's bindings alone. -/
theorem duplicate_entries_last_wins (items : List FileInfo) (name : String) :
    lookupMap (buildMap items) name
      = (items.reverse.find? (fun i => i.name == name)).map FileInfo.size ∧
    (∀ dm n, n ∈ to_download (buildMap items) dm
        ↔ ∃ sz, lookupMap (buildMap items) n = some sz
            ∧ lookupMap dm n ≠ some sz) :=
  ⟨lookupMap_buildMap items name,
   fun dm n => mem_to_download_iff _ dm n (buildMap_keys_nodup items)⟩

/-- Witness for C10: with two entries named `"a"` (sizes 1 then 5), the
snapshot binds `"a"` to 5, and `"a"` is not re-transferred against a
destination that already has size 5. -/
theorem duplicate_entries_last_wins_witness :
    (lookupMap (buildMap [⟨"a", 1⟩, ⟨"b", 2⟩, ⟨"a", 5⟩]) "a"
      = (([⟨"a", 1⟩, ⟨"b", 2⟩, ⟨"a", 5⟩] : List FileInfo).reverse.find?
          (fun i => i.name == "a")).map FileInfo.size) ∧
    ("a" ∈ to_download (buildMap [⟨"a", 1⟩, ⟨"b", 2⟩, ⟨"a", 5⟩]) [("a", 5)]
      ↔ ∃ sz, lookupMap (buildMap [⟨"a", 1⟩, ⟨"b", 2⟩, ⟨"a", 5⟩]) "a" = some sz
          ∧ lookupMap [("a", 5)] "a" ≠ some sz) :=
  ⟨(duplicate_entries_last_wins [⟨"a", 1⟩, ⟨"b", 2⟩, ⟨"a", 5⟩] "a").1,
   (duplicate_entries_last_wins [⟨"a", 1⟩, ⟨"b", 2⟩, ⟨"a", 5⟩] "a").2
     [("a", 5)] "a"⟩

/-! ### Lowercase-hex rendering lemmas -/

/-- A character `{:x}` can produce: a decimal digit or a lowercase
`a`-`f`. -/
def isLowerHexChar (c : Char) : Bool :=
  (48 ≤ c.toNat && c.toNat ≤ 57) || (97 ≤ c.toNat && c.toNat ≤ 102)

theorem hexDigit_lower : ∀ i : Fin 16, isLowerHexChar (hexDigit i.val) = true := by
  decide

theorem hexLower_chars (bytes : List Nat) :
    ∀ c ∈ (hexLower bytes).data, isLowerHexChar c = true := by
  intro c hc
  have hc' : c ∈ bytes.flatMap byteHex := hc
  rcases List.mem_flatMap.mp hc' with ⟨b, _, hcb⟩
  unfold byteHex at hcb
  rcases List.mem_cons.mp hcb with h | h
  · rw [h]
    exact hexDigit_lower ⟨b / 16 % 16, Nat.mod_lt _ (by omega)⟩
  · rcases List.mem_cons.mp h with h' | h'
    · rw [h']
      exact hexDigit_lower ⟨b % 16, Nat.mod_lt _ (by omega)⟩
    · cases h'

theorem hexLower_ne_of_bad_char (name : String)
    (hbad : ∃ c ∈ name.data, isLowerHexChar c = false) (l : List Nat) :
    hexLower l ≠ name := by
  intro he
  rcases hbad with ⟨c, hc, hfalse⟩
  rw [← he] at hc
  rw [hexLower_chars l c hc] at hfalse
  cases hfalse

/-! ### Branch characterizations of the embedded operations -/

theorem sync_file_download_fail (o : Oracle) (sha : List Nat → List Nat)
    (source dest file_type name : String) (s : St)
    (hfail : is_success (o s.n ⟨Method.GET,
      source ++ file_type ++ "/" ++ name, []⟩).status = false) :
    sync_file o sha source dest file_type name s
      = (Except.error (Err.downloadFailed (source ++ file_type ++ "/" ++ name)
          (o s.n ⟨Method.GET, source ++ file_type ++ "/" ++ name, []⟩).status),
         ⟨s.n + 1, s.trace ++ [(⟨Method.GET,
            source ++ file_type ++ "/" ++ name, []⟩,
           o s.n ⟨Method.GET, source ++ file_type ++ "/" ++ name, []⟩)]⟩) := by
  simp [sync_file, sendR, hfail]

theorem sync_file_verify_fail (o : Oracle) (sha : List Nat → List Nat)
    (source dest file_type name : String) (s : St)
    (hsucc : is_success (o s.n ⟨Method.GET,
      source ++ file_type ++ "/" ++ name, []⟩).status = true)
    (hne : hexLower (sha (o s.n ⟨Method.GET,
      source ++ file_type ++ "/" ++ name, []⟩).body) ≠ name) :
    sync_file o sha source dest file_type name s
      = (Except.error (Err.blobVerificationFailed name
          (hexLower (sha (o s.n ⟨Method.GET,
            source ++ file_type ++ "/" ++ name, []⟩).body))),
         ⟨s.n + 1, s.trace ++ [(⟨Method.GET,
            source ++ file_type ++ "/" ++ name, []⟩,
           o s.n ⟨Method.GET, source ++ file_type ++ "/" ++ name, []⟩)]⟩) := by
  simp [sync_file, sendR, hsucc, hne]

theorem sync_file_upload (o : Oracle) (sha : List Nat → List Nat)
    (source dest file_type name : String) (s : St)
    (hsucc : is_success (o s.n ⟨Method.GET,
      source ++ file_type ++ "/" ++ name, []⟩).status = true)
    (heq : hexLower (sha (o s.n ⟨Method.GET,
      source ++ file_type ++ "/" ++ name, []⟩).body) = name) :
    sync_file o sha source dest file_type name s
      = (if is_success (o (s.n + 1) ⟨Method.POST,
            dest ++ file_type ++ "/" ++ name,
            (o s.n ⟨Method.GET, source ++ file_type ++ "/" ++ name, []⟩).body⟩
          ).status
         then Except.ok ()
         else Except.error (Err.uploadFailed (dest ++ file_type ++ "/" ++ name)
           (o (s.n + 1) ⟨Method.POST, dest ++ file_type ++ "/" ++ name,
             (o s.n ⟨Method.GET, source ++ file_type ++ "/" ++ name, []⟩).body⟩
            ).status),
         ⟨s.n + 2,
          s.trace
            ++ [(⟨Method.GET, source ++ file_type ++ "/" ++ name, []⟩,
                 o s.n ⟨Method.GET, source ++ file_type ++ "/" ++ name, []⟩),
                (⟨Method.POST, dest ++ file_type ++ "/" ++ name,
                  (o s.n ⟨Method.GET,
                    source ++ file_type ++ "/" ++ name, []⟩).body⟩,
                 o (s.n + 1) ⟨Method.POST, dest ++ file_type ++ "/" ++ name,
                   (o s.n ⟨Method.GET,
                     source ++ file_type ++ "/" ++ name, []⟩).body⟩)]⟩) := by
  by_cases hup : is_success (o (s.n + 1) ⟨Method.POST,
      dest ++ file_type ++ "/" ++ name,
      (o s.n ⟨Method.GET, source ++ file_type ++ "/" ++ name, []⟩).body⟩
    ).status = true
  · simp [sync_file, sendR, hsucc, heq, hup]
  · rw [Bool.not_eq_true] at hup
    simp [sync_file, sendR, hsucc, heq, hup]

/-- C2.  Hash integrity: if the lowercase-hex SHA-256 of the bytes fetched
from the source differs from the object's name, `sync_file` returns the
blob-verification-failed error and the trace gains only the GET — no
upload request carrying those bytes is ever issued; conversely, every POST
`sync_file` issues carries bytes whose lowercase-hex SHA-256 equals the
object's name, and targets the destination object URL. -/
theorem hash_integrity (o : Oracle) (sha : List Nat → List Nat)
    (source dest file_type name : String) (s : St) :
    (is_success (o s.n ⟨Method.GET,
        source ++ file_type ++ "/" ++ name, []⟩).status = true →
     hexLower (sha (o s.n ⟨Method.GET,
        source ++ file_type ++ "/" ++ name, []⟩).body) ≠ name →
     sync_file o sha source dest file_type name s
       = (Except.error (Err.blobVerificationFailed name
           (hexLower (sha (o s.n ⟨Method.GET,
             source ++ file_type ++ "/" ++ name, []⟩).body))),
          ⟨s.n + 1, s.trace ++ [(⟨Method.GET,
             source ++ file_type ++ "/" ++ name, []⟩,
            o s.n ⟨Method.GET, source ++ file_type ++ "/" ++ name, []⟩)]⟩)) ∧
    (∀ req resp,
      (req, resp) ∈ (sync_file o sha source dest file_type name s).2.trace →
      (req, resp) ∉ s.trace → req.method = Method.POST →
      hexLower (sha req.body) = name
        ∧ req.url = dest ++ file_type ++ "/" ++ name) := by
  constructor
  · intro hsucc hne
    exact sync_file_verify_fail o sha source dest file_type name s hsucc hne
  · intro req resp hmem hnot hpost
    by_cases h0 : is_success (o s.n ⟨Method.GET,
        source ++ file_type ++ "/" ++ name, []⟩).status = true
    · by_cases h1 : hexLower (sha (o s.n ⟨Method.GET,
          source ++ file_type ++ "/" ++ name, []⟩).body) = name
      · rw [sync_file_upload o sha source dest file_type name s h0 h1] at hmem
        simp only [List.mem_append, List.mem_cons, List.not_mem_nil,
          or_false] at hmem
        rcases hmem with h | h | h
        · exact absurd h hnot
        · rw [Prod.mk.injEq] at h
          rw [h.1] at hpost
          simp at hpost
        · rw [Prod.mk.injEq] at h
          rw [h.1]
          exact ⟨h1, rfl⟩
      · rw [sync_file_verify_fail o sha source dest file_type name s h0 h1]
          at hmem
        simp only [List.mem_append, List.mem_cons, List.not_mem_nil,
          or_false] at hmem
        rcases hmem with h | h
        · exact absurd h hnot
        · rw [Prod.mk.injEq] at h
          rw [h.1] at hpost
          simp at hpost
    · rw [Bool.not_eq_true] at h0
      rw [sync_file_download_fail o sha source dest file_type name s h0]
        at hmem
      simp only [List.mem_append, List.mem_cons, List.not_mem_nil,
        or_false] at hmem
      rcases hmem with h | h
      · exact absurd h hnot
      · rw [Prod.mk.injEq] at h
        rw [h.1] at hpost
        simp at hpost

/-- Witness for C2: fetched bytes `[255]`, identity digest, so the
recomputed lowercase-hex hash is `"ff"` and the listed name `"zz"` does
not match: `sync_file` fails verification after only the GET. -/
theorem hash_integrity_witness :
    sync_file (fun _ _ => ⟨200, [255]⟩) (fun b => b) "s/" "d/" "data" "zz"
        ⟨0, []⟩
      = (Except.error (Err.blobVerificationFailed "zz" "ff"),
         ⟨1, [(⟨Method.GET, "s/data/zz", []⟩, ⟨200, [255]⟩)]⟩) := by
  have h := (hash_integrity (fun _ _ => ⟨200, [255]⟩) (fun b => b)
    "s/" "d/" "data" "zz" ⟨0, []⟩).1 (by decide) (by decide)
  rw [h]
  rfl

/-- C9.  Lowercase-only verification: the recomputed hash is rendered in
lowercase hex and compared by exact string equality, so an object whose
listed name contains any character outside the lowercase-hex alphabet
(e.g. an uppercase hex digit) always fails verification, whatever bytes
are fetched and whatever the digest function computes. -/
theorem lowercase_only_verification (o : Oracle) (sha : List Nat → List Nat)
    (source dest file_type name : String) (s : St)
    (hbad : ∃ c ∈ name.data, isLowerHexChar c = false)
    (hsucc : is_success (o s.n ⟨Method.GET,
        source ++ file_type ++ "/" ++ name, []⟩).status = true) :
    sync_file o sha source dest file_type name s
      = (Except.error (Err.blobVerificationFailed name
          (hexLower (sha (o s.n ⟨Method.GET,
            source ++ file_type ++ "/" ++ name, []⟩).body))),
         ⟨s.n + 1, s.trace ++ [(⟨Method.GET,
            source ++ file_type ++ "/" ++ name, []⟩,
           o s.n ⟨Method.GET, source ++ file_type ++ "/" ++ name, []⟩)]⟩) :=
  sync_file_verify_fail o sha source dest file_type name s hsucc
    (hexLower_ne_of_bad_char name hbad _)

/-- Witness for C9: the name `"FF"` matches the recomputed hash `"ff"`
case-insensitively but still fails the exact lowercase comparison. -/
theorem lowercase_only_verification_witness :
    sync_file (fun _ _ => ⟨200, [255]⟩) (fun _ => [255]) "s/" "d/" "data"
        "FF" ⟨0, []⟩
      = (Except.error (Err.blobVerificationFailed "FF" "ff"),
         ⟨1, [(⟨Method.GET, "s/data/FF", []⟩, ⟨200, [255]⟩)]⟩) := by
  have h := lowercase_only_verification (fun _ _ => ⟨200, [255]⟩)
    (fun _ => [255]) "s/" "d/" "data" "FF" ⟨0, []⟩ (by decide) (by decide)
  rw [h]
  rfl

theorem list_files_not_found (o : Oracle)
    (parse : List Nat → Option (List FileInfo)) (repo file_type : String)
    (s : St)
    (h : (o s.n ⟨Method.GET, repo ++ file_type ++ "/", []⟩).status = 404) :
    list_files o parse repo file_type s
      = (Except.ok [],
         ⟨s.n + 1, s.trace ++ [(⟨Method.GET, repo ++ file_type ++ "/", []⟩,
           o s.n ⟨Method.GET, repo ++ file_type ++ "/", []⟩)]⟩) := by
  simp [list_files, sendR, h, is_success, NOT_FOUND]

theorem list_files_status_fail (o : Oracle)
    (parse : List Nat → Option (List FileInfo)) (repo file_type : String)
    (s : St)
    (h1 : is_success
      (o s.n ⟨Method.GET, repo ++ file_type ++ "/", []⟩).status = false)
    (h2 : (o s.n ⟨Method.GET, repo ++ file_type ++ "/", []⟩).status ≠ 404) :
    list_files o parse repo file_type s
      = (Except.error (Err.listFailed (repo ++ file_type ++ "/")
          (o s.n ⟨Method.GET, repo ++ file_type ++ "/", []⟩).status),
         ⟨s.n + 1, s.trace ++ [(⟨Method.GET, repo ++ file_type ++ "/", []⟩,
           o s.n ⟨Method.GET, repo ++ file_type ++ "/", []⟩)]⟩) := by
  simp [list_files, sendR, h1, NOT_FOUND, h2]

theorem list_files_parse_fail (o : Oracle)
    (parse : List Nat → Option (List FileInfo)) (repo file_type : String)
    (s : St)
    (h1 : is_success
      (o s.n ⟨Method.GET, repo ++ file_type ++ "/", []⟩).status = true)
    (h2 : parse (o s.n ⟨Method.GET, repo ++ file_type ++ "/", []⟩).body
      = none) :
    list_files o parse repo file_type s
      = (Except.error (Err.parseFailed (repo ++ file_type ++ "/") file_type),
         ⟨s.n + 1, s.trace ++ [(⟨Method.GET, repo ++ file_type ++ "/", []⟩,
           o s.n ⟨Method.GET, repo ++ file_type ++ "/", []⟩)]⟩) := by
  simp [list_files, sendR, h1, h2]

theorem list_files_parse_ok (o : Oracle)
    (parse : List Nat → Option (List FileInfo)) (repo file_type : String)
    (s : St) (items : List FileInfo)
    (h1 : is_success
      (o s.n ⟨Method.GET, repo ++ file_type ++ "/", []⟩).status = true)
    (h2 : parse (o s.n ⟨Method.GET, repo ++ file_type ++ "/", []⟩).body
      = some items) :
    list_files o parse repo file_type s
      = (Except.ok items,
         ⟨s.n + 1, s.trace ++ [(⟨Method.GET, repo ++ file_type ++ "/", []⟩,
           o s.n ⟨Method.GET, repo ++ file_type ++ "/", []⟩)]⟩) := by
  simp [list_files, sendR, h1, h2]

theorem list_files_state (o : Oracle)
    (parse : List Nat → Option (List FileInfo)) (repo file_type : String)
    (s : St) :
    (list_files o parse repo file_type s).2
      = ⟨s.n + 1, s.trace ++ [(⟨Method.GET, repo ++ file_type ++ "/", []⟩,
          o s.n ⟨Method.GET, repo ++ file_type ++ "/", []⟩)]⟩ := by
  by_cases h1 : is_success
      (o s.n ⟨Method.GET, repo ++ file_type ++ "/", []⟩).status = true
  · cases h2 : parse (o s.n ⟨Method.GET, repo ++ file_type ++ "/", []⟩).body
      with
    | none => rw [list_files_parse_fail o parse repo file_type s h1 h2]
    | some items => rw [list_files_parse_ok o parse repo file_type s items h1 h2]
  · rw [Bool.not_eq_true] at h1
    by_cases h2 : (o s.n ⟨Method.GET, repo ++ file_type ++ "/", []⟩).status
        = 404
    · rw [list_files_not_found o parse repo file_type s h2]
    · rw [list_files_status_fail o parse repo file_type s h1 h2]

theorem list_files_err_shape (o : Oracle)
    (parse : List Nat → Option (List FileInfo)) (repo file_type : String)
    (s : St) (e : Err) (s' : St)
    (h : list_files o parse repo file_type s = (Except.error e, s')) :
    (∃ url st, e = Err.listFailed url st)
      ∨ (∃ url t, e = Err.parseFailed url t) := by
  by_cases h1 : is_success
      (o s.n ⟨Method.GET, repo ++ file_type ++ "/", []⟩).status = true
  · cases h2 : parse (o s.n ⟨Method.GET, repo ++ file_type ++ "/", []⟩).body
      with
    | none =>
      rw [list_files_parse_fail o parse repo file_type s h1 h2] at h
      rw [Prod.mk.injEq] at h
      have he := h.1
      simp only [Except.error.injEq] at he
      exact Or.inr ⟨_, _, he.symm⟩
    | some items =>
      rw [list_files_parse_ok o parse repo file_type s items h1 h2] at h
      rw [Prod.mk.injEq] at h
      cases h.1
  · rw [Bool.not_eq_true] at h1
    by_cases h2 : (o s.n ⟨Method.GET, repo ++ file_type ++ "/", []⟩).status
        = 404
    · rw [list_files_not_found o parse repo file_type s h2] at h
      rw [Prod.mk.injEq] at h
      cases h.1
    · rw [list_files_status_fail o parse repo file_type s h1 h2] at h
      rw [Prod.mk.injEq] at h
      have he := h.1
      simp only [Except.error.injEq] at he
      exact Or.inl ⟨_, _, he.symm⟩

/-- C7.  Listing fetcher error classification: a not-found (404) listing
response yields the empty listing and success; any other non-success
status yields a fatal `listFailed` error carrying the request URL (which
embeds the category path segment) and status; a success response whose
body fails to parse as the structured v2 array yields a fatal
`parseFailed` error carrying the request URL and category. -/
theorem listing_error_classification (o : Oracle)
    (parse : List Nat → Option (List FileInfo)) (repo file_type : String)
    (s : St) :
    ((o s.n ⟨Method.GET, repo ++ file_type ++ "/", []⟩).status = 404 →
      (list_files o parse repo file_type s).1 = Except.ok []) ∧
    (is_success
        (o s.n ⟨Method.GET, repo ++ file_type ++ "/", []⟩).status = false →
      (o s.n ⟨Method.GET, repo ++ file_type ++ "/", []⟩).status ≠ 404 →
      (list_files o parse repo file_type s).1
        = Except.error (Err.listFailed (repo ++ file_type ++ "/")
            (o s.n ⟨Method.GET, repo ++ file_type ++ "/", []⟩).status)) ∧
    (is_success
        (o s.n ⟨Method.GET, repo ++ file_type ++ "/", []⟩).status = true →
      parse (o s.n ⟨Method.GET, repo ++ file_type ++ "/", []⟩).body = none →
      (list_files o parse repo file_type s).1
        = Except.error (Err.parseFailed (repo ++ file_type ++ "/")
            file_type)) := by
  refine ⟨?_, ?_, ?_⟩
  · intro h
    rw [list_files_not_found o parse repo file_type s h]
  · intro h1 h2
    rw [list_files_status_fail o parse repo file_type s h1 h2]
  · intro h1 h2
    rw [list_files_parse_fail o parse repo file_type s h1 h2]

/-- Witness for C7: concrete oracles exercising the three branches —
404 yields the empty listing, a 500 yields `listFailed`, and an
unparseable 200 body yields `parseFailed`. -/
theorem listing_error_classification_witness :
    (list_files (fun _ _ => ⟨404, []⟩) (fun _ => none) "r/" "data"
        ⟨0, []⟩).1 = Except.ok [] ∧
    (list_files (fun _ _ => ⟨500, []⟩) (fun _ => none) "r/" "data"
        ⟨0, []⟩).1 = Except.error (Err.listFailed ("r/" ++ "data" ++ "/") 500) ∧
    (list_files (fun _ _ => ⟨200, []⟩) (fun _ => none) "r/" "data"
        ⟨0, []⟩).1
      = Except.error (Err.parseFailed ("r/" ++ "data" ++ "/") "data") :=
  ⟨(listing_error_classification (fun _ _ => ⟨404, []⟩) (fun _ => none)
      "r/" "data" ⟨0, []⟩).1 (by decide),
   (listing_error_classification (fun _ _ => ⟨500, []⟩) (fun _ => none)
      "r/" "data" ⟨0, []⟩).2.1 (by decide) (by decide),
   (listing_error_classification (fun _ _ => ⟨200, []⟩) (fun _ => none)
      "r/" "data" ⟨0, []⟩).2.2 (by decide) rfl⟩

theorem init_dest_ok (o : Oracle) (dest : String) (s : St)
    (h : is_success
      (o s.n ⟨Method.POST, dest ++ "?create=true", []⟩).status = true) :
    init_dest o dest s
      = (Except.ok (),
         ⟨s.n + 1, s.trace ++ [(⟨Method.POST, dest ++ "?create=true", []⟩,
           o s.n ⟨Method.POST, dest ++ "?create=true", []⟩)]⟩) := by
  simp [init_dest, sendR, h]

theorem init_dest_fail (o : Oracle) (dest : String) (s : St)
    (h : is_success
      (o s.n ⟨Method.POST, dest ++ "?create=true", []⟩).status = false) :
    init_dest o dest s
      = (Except.error (Err.initFailed
          (o s.n ⟨Method.POST, dest ++ "?create=true", []⟩).status),
         ⟨s.n + 1, s.trace ++ [(⟨Method.POST, dest ++ "?create=true", []⟩,
           o s.n ⟨Method.POST, dest ++ "?create=true", []⟩)]⟩) := by
  simp [init_dest, sendR, h]

theorem sync_config_mismatch (o : Oracle) (source dest : String) (s : St)
    (h1 : is_success
      (o s.n ⟨Method.GET, source ++ "config", []⟩).status = true)
    (h2 : (o (s.n + 1) ⟨Method.POST, dest ++ "config",
      (o s.n ⟨Method.GET, source ++ "config", []⟩).body⟩).status = 403)
    (h3 : is_success
      (o (s.n + 1 + 1) ⟨Method.GET, dest ++ "config", []⟩).status = true)
    (h4 : (o (s.n + 1 + 1) ⟨Method.GET, dest ++ "config", []⟩).body
      ≠ (o s.n ⟨Method.GET, source ++ "config", []⟩).body) :
    sync_config o source dest s
      = (Except.error Err.configMismatch,
         ⟨s.n + 1 + 1 + 1,
          s.trace
            ++ [(⟨Method.GET, source ++ "config", []⟩,
                 o s.n ⟨Method.GET, source ++ "config", []⟩),
                (⟨Method.POST, dest ++ "config",
                  (o s.n ⟨Method.GET, source ++ "config", []⟩).body⟩,
                 o (s.n + 1) ⟨Method.POST, dest ++ "config",
                   (o s.n ⟨Method.GET, source ++ "config", []⟩).body⟩),
                (⟨Method.GET, dest ++ "config", []⟩,
                 o (s.n + 1 + 1) ⟨Method.GET, dest ++ "config", []⟩)]⟩) := by
  have hforb : is_success 403 = false := by decide
  simp [sync_config, sendR, h1, h2, h3, h4, hforb, FORBIDDEN]

/-- C1.  Config safety on divergence: when the destination repository
init succeeds, the source config is fetched successfully, the create-write
of it to the destination is rejected with the distinguished
already-exists status (403), and the destination config is fetched
successfully with bytes different from the source's, then the run aborts
with the configuration-mismatch error after exactly those four requests —
in particular no category is synced — and the only POST ever sent to
the destination config URL is the rejected one, so the destination config
is never overwritten. -/
theorem config_divergence_aborts (o : Oracle) (sha : List Nat → List Nat)
    (parse : List Nat → Option (List FileInfo)) (source dest : String)
    (prune : Bool)
    (h0 : is_success (o 0 ⟨Method.POST,
      normalize_url dest ++ "?create=true", []⟩).status = true)
    (h1 : is_success (o 1 ⟨Method.GET,
      normalize_url source ++ "config", []⟩).status = true)
    (h2 : (o 2 ⟨Method.POST, normalize_url dest ++ "config",
      (o 1 ⟨Method.GET, normalize_url source ++ "config", []⟩).body⟩).status
      = 403)
    (h3 : is_success (o 3 ⟨Method.GET,
      normalize_url dest ++ "config", []⟩).status = true)
    (h4 : (o 3 ⟨Method.GET, normalize_url dest ++ "config", []⟩).body
      ≠ (o 1 ⟨Method.GET, normalize_url source ++ "config", []⟩).body) :
    run_sync o sha parse source dest prune
      = (Except.error Err.configMismatch,
         ⟨4, [(⟨Method.POST, normalize_url dest ++ "?create=true", []⟩,
               o 0 ⟨Method.POST, normalize_url dest ++ "?create=true", []⟩),
              (⟨Method.GET, normalize_url source ++ "config", []⟩,
               o 1 ⟨Method.GET, normalize_url source ++ "config", []⟩),
              (⟨Method.POST, normalize_url dest ++ "config",
                (o 1 ⟨Method.GET,
                  normalize_url source ++ "config", []⟩).body⟩,
               o 2 ⟨Method.POST, normalize_url dest ++ "config",
                 (o 1 ⟨Method.GET,
                   normalize_url source ++ "config", []⟩).body⟩),
              (⟨Method.GET, normalize_url dest ++ "config", []⟩,
               o 3 ⟨Method.GET, normalize_url dest ++ "config", []⟩)]⟩) ∧
    (∀ req resp,
      (req, resp) ∈ (run_sync o sha parse source dest prune).2.trace →
      req.method = Method.POST → req.url = normalize_url dest ++ "config" →
      is_success resp.status = false) := by
  have hinit := init_dest_ok o (normalize_url dest) ⟨0, []⟩ h0
  have hconf := sync_config_mismatch o (normalize_url source)
    (normalize_url dest)
    ⟨0 + 1, [] ++ [(⟨Method.POST, normalize_url dest ++ "?create=true", []⟩,
      o 0 ⟨Method.POST, normalize_url dest ++ "?create=true", []⟩)]⟩
    h1 h2 h3 h4
  have hrun : run_sync o sha parse source dest prune
      = (Except.error Err.configMismatch,
         ⟨4, [(⟨Method.POST, normalize_url dest ++ "?create=true", []⟩,
               o 0 ⟨Method.POST, normalize_url dest ++ "?create=true", []⟩),
              (⟨Method.GET, normalize_url source ++ "config", []⟩,
               o 1 ⟨Method.GET, normalize_url source ++ "config", []⟩),
              (⟨Method.POST, normalize_url dest ++ "config",
                (o 1 ⟨Method.GET,
                  normalize_url source ++ "config", []⟩).body⟩,
               o 2 ⟨Method.POST, normalize_url dest ++ "config",
                 (o 1 ⟨Method.GET,
                   normalize_url source ++ "config", []⟩).body⟩),
              (⟨Method.GET, normalize_url dest ++ "config", []⟩,
               o 3 ⟨Method.GET, normalize_url dest ++ "config", []⟩)]⟩) := by
    simp only [run_sync, hinit]
    rw [hconf]
    norm_num
  refine ⟨hrun, ?_⟩
  intro req resp hmem hpost hurl
  rw [hrun] at hmem
  simp only [List.mem_cons, List.not_mem_nil, or_false] at hmem
  have hne : normalize_url dest ++ "?create=true"
      ≠ normalize_url dest ++ "config" := by
    intro hc
    have hd := congrArg String.data hc
    rw [String.data_append, String.data_append] at hd
    have hs := List.append_cancel_left hd
    have heq : ("?create=true" : String) = "config" := String.ext hs
    exact absurd heq (by decide)
  rcases hmem with h | h | h | h
  · rw [Prod.mk.injEq] at h
    rw [h.1] at hurl
    exact absurd hurl hne
  · rw [Prod.mk.injEq] at h
    rw [h.1] at hpost
    simp at hpost
  · rw [Prod.mk.injEq] at h
    rw [h.2, h2]
    decide
  · rw [Prod.mk.injEq] at h
    rw [h.1] at hpost
    simp at hpost

/-- Witness for C1: a concrete oracle where the destination already holds
config bytes `[2]` while the source holds `[1]` — the run stops with the
mismatch error after the four handshake requests, the destination POST
having been rejected with 403. -/
theorem config_divergence_aborts_witness :
    run_sync
        (fun n _ => if n = 0 then ⟨200, []⟩
          else if n = 1 then ⟨200, [1]⟩
          else if n = 2 then ⟨403, []⟩
          else ⟨200, [2]⟩)
        (fun b => b) (fun _ => none) "s" "d" false
      = (Except.error Err.configMismatch,
         ⟨4, [(⟨Method.POST, normalize_url "d" ++ "?create=true", []⟩,
               ⟨200, []⟩),
              (⟨Method.GET, normalize_url "s" ++ "config", []⟩, ⟨200, [1]⟩),
              (⟨Method.POST, normalize_url "d" ++ "config", [1]⟩, ⟨403, []⟩),
              (⟨Method.GET, normalize_url "d" ++ "config", []⟩,
               ⟨200, [2]⟩)]⟩) := by
  have h := (config_divergence_aborts
    (fun n _ => if n = 0 then ⟨200, []⟩
      else if n = 1 then ⟨200, [1]⟩
      else if n = 2 then ⟨403, []⟩
      else ⟨200, [2]⟩)
    (fun b => b) (fun _ => none) "s" "d" false
    (by decide) (by decide) (by decide) (by decide) (by decide)).1
  rw [h]
  rfl

theorem sync_types_append (o : Oracle) (sha : List Nat → List Nat)
    (parse : List Nat → Option (List FileInfo)) (source dest : String)
    (ts1 ts2 : List String) (prune : Bool) :
    ∀ s : St,
    sync_types o sha parse source dest (ts1 ++ ts2) prune s
      = (match sync_types o sha parse source dest ts1 prune s with
         | (Except.error e, s') => (Except.error e, s')
         | (Except.ok _, s') =>
            sync_types o sha parse source dest ts2 prune s') := by
  induction ts1 with
  | nil =>
    intro s
    simp [sync_types]
  | cons t rest ih =>
    intro s
    rcases h : sync_type o sha parse source dest t prune s with ⟨r, s₁⟩
    cases r with
    | error e =>
      simp only [List.cons_append, sync_types, h]
    | ok u =>
      simp only [List.cons_append, sync_types, h]
      exact ih s₁

/-- C5.  Orchestrator sequencing and abort: the category list is fixed to
data, keys, locks, snapshots, index, in that order; a failing repository
init makes the run return that error with no further requests; after a
successful init, a failing config sync makes the run return that error
with no further requests; after init and config succeed, the run is
exactly the sequential category sync over `FILE_TYPES`; and the
sequential category sync short-circuits — an error on a prefix of the
category list is the result for the whole list, with the remaining
categories never attempted (the state, hence the trace, is exactly the
failure state), while a successful prefix continues from its end state. -/
theorem orchestrator_sequencing (o : Oracle) (sha : List Nat → List Nat)
    (parse : List Nat → Option (List FileInfo)) (source dest : String)
    (prune : Bool) :
    FILE_TYPES = ["data", "keys", "locks", "snapshots", "index"] ∧
    (∀ e s',
      init_dest o (normalize_url dest) ⟨0, []⟩ = (Except.error e, s') →
      run_sync o sha parse source dest prune = (Except.error e, s')) ∧
    (∀ s₁ e s',
      init_dest o (normalize_url dest) ⟨0, []⟩ = (Except.ok (), s₁) →
      sync_config o (normalize_url source) (normalize_url dest) s₁
        = (Except.error e, s') →
      run_sync o sha parse source dest prune = (Except.error e, s')) ∧
    (∀ s₁ s₂,
      init_dest o (normalize_url dest) ⟨0, []⟩ = (Except.ok (), s₁) →
      sync_config o (normalize_url source) (normalize_url dest) s₁
        = (Except.ok (), s₂) →
      run_sync o sha parse source dest prune
        = sync_types o sha parse (normalize_url source)
            (normalize_url dest) FILE_TYPES prune s₂) ∧
    (∀ ts1 ts2 s e s',
      sync_types o sha parse source dest ts1 prune s
        = (Except.error e, s') →
      sync_types o sha parse source dest (ts1 ++ ts2) prune s
        = (Except.error e, s')) ∧
    (∀ ts1 ts2 s s₁,
      sync_types o sha parse source dest ts1 prune s = (Except.ok (), s₁) →
      sync_types o sha parse source dest (ts1 ++ ts2) prune s
        = sync_types o sha parse source dest ts2 prune s₁) := by
  refine ⟨rfl, ?_, ?_, ?_, ?_, ?_⟩
  · intro e s' h
    simp only [run_sync, h]
  · intro s₁ e s' h₁ h₂
    simp only [run_sync, h₁, h₂]
  · intro s₁ s₂ h₁ h₂
    simp only [run_sync, h₁, h₂]
  · intro ts1 ts2 s e s' h
    rw [sync_types_append o sha parse source dest ts1 ts2 prune s, h]
  · intro ts1 ts2 s s₁ h
    rw [sync_types_append o sha parse source dest ts1 ts2 prune s, h]

/-- Witness for C5: with an oracle refusing the repository init (500),
the run returns the init error after that single request and never goes
on; and a category-list prefix failing on its first listing makes the
whole category loop return that same error and state. -/
theorem orchestrator_sequencing_witness :
    run_sync (fun _ _ => ⟨500, []⟩) (fun b => b) (fun _ => none) "s" "d"
        false
      = (Except.error (Err.initFailed 500),
         ⟨1, [(⟨Method.POST, normalize_url "d" ++ "?create=true", []⟩,
           ⟨500, []⟩)]⟩) ∧
    sync_types (fun _ _ => ⟨500, []⟩) (fun b => b) (fun _ => none) "s/"
        "d/" (["data"] ++ ["keys", "locks"]) false ⟨0, []⟩
      = (Except.error (Err.listFailed ("s/" ++ "data" ++ "/") 500),
         ⟨1, [(⟨Method.GET, "s/" ++ "data" ++ "/", []⟩, ⟨500, []⟩)]⟩) := by
  constructor
  · exact (orchestrator_sequencing (fun _ _ => ⟨500, []⟩) (fun b => b)
      (fun _ => none) "s" "d" false).2.1 (Err.initFailed 500)
      ⟨1, [(⟨Method.POST, normalize_url "d" ++ "?create=true", []⟩,
        ⟨500, []⟩)]⟩
      (init_dest_fail (fun _ _ => ⟨500, []⟩) (normalize_url "d") ⟨0, []⟩
        (by decide))
  · exact (orchestrator_sequencing (fun _ _ => ⟨500, []⟩) (fun b => b)
      (fun _ => none) "s/" "d/" false).2.2.2.2.1 ["data"] ["keys", "locks"]
      ⟨0, []⟩ (Err.listFailed ("s/" ++ "data" ++ "/") 500)
      ⟨1, [(⟨Method.GET, "s/" ++ "data" ++ "/", []⟩, ⟨500, []⟩)]⟩
      rfl

theorem sync_file_trace (o : Oracle) (sha : List Nat → List Nat)
    (source dest file_type name : String) (s : St) :
    ∃ Δ, (sync_file o sha source dest file_type name s).2.trace
        = s.trace ++ Δ
      ∧ ∀ e ∈ Δ, e.1.method ≠ Method.DELETE := by
  by_cases h0 : is_success (o s.n ⟨Method.GET,
      source ++ file_type ++ "/" ++ name, []⟩).status = true
  · by_cases h1 : hexLower (sha (o s.n ⟨Method.GET,
        source ++ file_type ++ "/" ++ name, []⟩).body) = name
    · rw [sync_file_upload o sha source dest file_type name s h0 h1]
      refine ⟨_, rfl, ?_⟩
      intro e he
      rcases List.mem_cons.mp he with he | he
      · rw [he]; intro hc; cases hc
      · rcases List.mem_cons.mp he with he | he
        · rw [he]; intro hc; cases hc
        · cases he
    · rw [sync_file_verify_fail o sha source dest file_type name s h0 h1]
      refine ⟨_, rfl, ?_⟩
      intro e he
      rcases List.mem_cons.mp he with he | he
      · rw [he]; intro hc; cases hc
      · cases he
  · rw [Bool.not_eq_true] at h0
    rw [sync_file_download_fail o sha source dest file_type name s h0]
    refine ⟨_, rfl, ?_⟩
    intro e he
    rcases List.mem_cons.mp he with he | he
    · rw [he]; intro hc; cases hc
    · cases he

theorem sync_files_trace (o : Oracle) (sha : List Nat → List Nat)
    (source dest file_type : String) :
    ∀ (names : List String) (s : St),
    ∃ Δ, (sync_files o sha source dest file_type names s).2.trace
        = s.trace ++ Δ
      ∧ ∀ e ∈ Δ, e.1.method ≠ Method.DELETE := by
  intro names
  induction names with
  | nil =>
    intro s
    refine ⟨[], by simp [sync_files], ?_⟩
    intro e he
    cases he
  | cons name rest ih =>
    intro s
    rcases hf : sync_file o sha source dest file_type name s with ⟨r, s₁⟩
    obtain ⟨Δ₁, hΔ₁, hm₁⟩ := sync_file_trace o sha source dest file_type
      name s
    rw [hf] at hΔ₁
    cases r with
    | error e =>
      have hrun : sync_files o sha source dest file_type (name :: rest) s
          = (Except.error e, s₁) := by
        simp only [sync_files, hf]
      rw [hrun]
      exact ⟨Δ₁, hΔ₁, hm₁⟩
    | ok u =>
      have hrun : sync_files o sha source dest file_type (name :: rest) s
          = sync_files o sha source dest file_type rest s₁ := by
        simp only [sync_files, hf]
      rw [hrun]
      obtain ⟨Δ₂, hΔ₂, hm₂⟩ := ih s₁
      refine ⟨Δ₁ ++ Δ₂, ?_, ?_⟩
      · rw [hΔ₂]
        show s₁.trace ++ Δ₂ = s.trace ++ (Δ₁ ++ Δ₂)
        rw [← List.append_assoc, ← hΔ₁]
      · intro e he
        rcases List.mem_append.mp he with h | h
        · exact hm₁ e h
        · exact hm₂ e h

theorem delete_file_state (o : Oracle) (dest file_type name : String)
    (s : St) :
    (delete_file o dest file_type name s).2
      = ⟨s.n + 1, s.trace
          ++ [(⟨Method.DELETE, dest ++ file_type ++ "/" ++ name, []⟩,
               o s.n ⟨Method.DELETE,
                 dest ++ file_type ++ "/" ++ name, []⟩)]⟩ := by
  by_cases h : is_success (o s.n ⟨Method.DELETE,
      dest ++ file_type ++ "/" ++ name, []⟩).status = true
  · simp [delete_file, sendR, h]
  · rw [Bool.not_eq_true] at h
    simp [delete_file, sendR, h]

theorem delete_file_err (o : Oracle) (dest file_type name : String) (s : St)
    (e : Err) (s' : St)
    (h : delete_file o dest file_type name s = (Except.error e, s')) :
    ∃ url st, e = Err.deleteFailed url st := by
  by_cases hs : is_success (o s.n ⟨Method.DELETE,
      dest ++ file_type ++ "/" ++ name, []⟩).status = true
  · simp [delete_file, sendR, hs] at h
  · rw [Bool.not_eq_true] at hs
    have hd : delete_file o dest file_type name s
        = (Except.error (Err.deleteFailed
            (dest ++ file_type ++ "/" ++ name)
            (o s.n ⟨Method.DELETE,
              dest ++ file_type ++ "/" ++ name, []⟩).status),
           ⟨s.n + 1, s.trace
             ++ [(⟨Method.DELETE, dest ++ file_type ++ "/" ++ name, []⟩,
                  o s.n ⟨Method.DELETE,
                    dest ++ file_type ++ "/" ++ name, []⟩)]⟩) := by
      simp [delete_file, sendR, hs]
    rw [hd, Prod.mk.injEq] at h
    have he := h.1
    simp only [Except.error.injEq] at he
    exact ⟨_, _, he.symm⟩

theorem delete_files_trace (o : Oracle) (dest file_type : String) :
    ∀ (names : List String) (s : St),
    ∃ Δ, (delete_files o dest file_type names s).2.trace = s.trace ++ Δ
      ∧ ∀ e ∈ Δ, e.1.method = Method.DELETE := by
  intro names
  induction names with
  | nil =>
    intro s
    refine ⟨[], by simp [delete_files], ?_⟩
    intro e he
    cases he
  | cons name rest ih =>
    intro s
    rcases hf : delete_file o dest file_type name s with ⟨r, s₁⟩
    have hΔ₁ : s₁.trace = s.trace
        ++ [(⟨Method.DELETE, dest ++ file_type ++ "/" ++ name, []⟩,
             o s.n ⟨Method.DELETE, dest ++ file_type ++ "/" ++ name, []⟩)]
        := by
      have hst := delete_file_state o dest file_type name s
      rw [hf] at hst
      exact congrArg St.trace hst
    cases r with
    | error e =>
      have hrun : delete_files o dest file_type (name :: rest) s
          = (Except.error e, s₁) := by
        simp only [delete_files, hf]
      rw [hrun]
      refine ⟨_, hΔ₁, ?_⟩
      intro e' he
      rcases List.mem_cons.mp he with he | he
      · rw [he]
      · cases he
    | ok u =>
      have hrun : delete_files o dest file_type (name :: rest) s
          = delete_files o dest file_type rest s₁ := by
        simp only [delete_files, hf]
      rw [hrun]
      obtain ⟨Δ₂, hΔ₂, hm₂⟩ := ih s₁
      refine ⟨[(⟨Method.DELETE, dest ++ file_type ++ "/" ++ name, []⟩,
        o s.n ⟨Method.DELETE, dest ++ file_type ++ "/" ++ name, []⟩)]
          ++ Δ₂, ?_, ?_⟩
      · rw [hΔ₂]
        show s₁.trace ++ Δ₂ = s.trace
          ++ ([(⟨Method.DELETE, dest ++ file_type ++ "/" ++ name, []⟩,
            o s.n ⟨Method.DELETE,
              dest ++ file_type ++ "/" ++ name, []⟩)] ++ Δ₂)
        rw [← List.append_assoc, ← hΔ₁]
      · intro e' he
        rcases List.mem_append.mp he with h | h
        · rcases List.mem_cons.mp h with h | h
          · rw [h]
          · cases h
        · exact hm₂ e' h

theorem delete_files_err (o : Oracle) (dest file_type : String) :
    ∀ (names : List String) (s : St) (e : Err) (s' : St),
    delete_files o dest file_type names s = (Except.error e, s') →
    ∃ url st, e = Err.deleteFailed url st := by
  intro names
  induction names with
  | nil =>
    intro s e s' h
    simp [delete_files] at h
  | cons name rest ih =>
    intro s e s' h
    rcases hd : delete_file o dest file_type name s with ⟨r, s₁⟩
    cases r with
    | error e₁ =>
      have hrun : delete_files o dest file_type (name :: rest) s
          = (Except.error e₁, s₁) := by
        simp only [delete_files, hd]
      rw [hrun, Prod.mk.injEq] at h
      have he := h.1
      simp only [Except.error.injEq] at he
      rcases delete_file_err o dest file_type name s e₁ s₁ hd with
        ⟨url, st, h2⟩
      refine ⟨url, st, ?_⟩
      rw [← he]
      exact h2
    | ok u =>
      have hrun : delete_files o dest file_type (name :: rest) s
          = delete_files o dest file_type rest s₁ := by
        simp only [delete_files, hd]
      rw [hrun] at h
      exact ih s₁ e s' h

theorem list_files_trace (o : Oracle)
    (parse : List Nat → Option (List FileInfo)) (repo file_type : String)
    (s : St) :
    ∃ Δ, (list_files o parse repo file_type s).2.trace = s.trace ++ Δ
      ∧ ∀ e ∈ Δ, e.1.method ≠ Method.DELETE := by
  rw [list_files_state]
  refine ⟨_, rfl, ?_⟩
  intro e he
  rcases List.mem_cons.mp he with he | he
  · rw [he]; intro hc; cases hc
  · cases he

/-- C8.  Transfer-before-delete within a category: whatever `sync_type`
does, its new trace entries decompose into a first block with no DELETE
request followed by a block of only DELETE requests (all transfers
precede all deletions); and when it fails with a transfer error
(download, blob verification, or upload), the final trace contains no
DELETE request beyond the starting trace — no deletion at all was
performed in the category. -/
theorem transfer_before_delete (o : Oracle) (sha : List Nat → List Nat)
    (parse : List Nat → Option (List FileInfo))
    (source dest file_type : String) (prune : Bool) (s : St) :
    (∀ r s', sync_type o sha parse source dest file_type prune s = (r, s') →
      ∃ Δt Δd, s'.trace = s.trace ++ Δt ++ Δd
        ∧ (∀ e ∈ Δt, e.1.method ≠ Method.DELETE)
        ∧ (∀ e ∈ Δd, e.1.method = Method.DELETE)) ∧
    (∀ e s', sync_type o sha parse source dest file_type prune s
        = (Except.error e, s') →
      isTransferErr e = true →
      ∀ en ∈ s'.trace, en ∈ s.trace ∨ en.1.method ≠ Method.DELETE) := by
  constructor
  · intro r s' hrun
    rcases hL1 : list_files o parse source file_type s with ⟨r1, s₁⟩
    obtain ⟨Δ₁, hΔ₁, hm₁⟩ := list_files_trace o parse source file_type s
    rw [hL1] at hΔ₁
    cases r1 with
    | error e1 =>
      have hstep : sync_type o sha parse source dest file_type prune s
          = (Except.error e1, s₁) := by
        simp only [sync_type, hL1]
      rw [hstep, Prod.mk.injEq] at hrun
      refine ⟨Δ₁, [], ?_, hm₁, ?_⟩
      · rw [List.append_nil, ← hrun.2]
        exact hΔ₁
      · intro e he; cases he
    | ok items1 =>
      rcases hL2 : list_files o parse dest file_type s₁ with ⟨r2, s₂⟩
      obtain ⟨Δ₂, hΔ₂, hm₂⟩ := list_files_trace o parse dest file_type s₁
      rw [hL2] at hΔ₂
      cases r2 with
      | error e2 =>
        have hstep : sync_type o sha parse source dest file_type prune s
            = (Except.error e2, s₂) := by
          simp only [sync_type, hL1, hL2]
        rw [hstep, Prod.mk.injEq] at hrun
        refine ⟨Δ₁ ++ Δ₂, [], ?_, ?_, ?_⟩
        · rw [List.append_nil, ← hrun.2, hΔ₂, hΔ₁, List.append_assoc]
        · intro e he
          rcases List.mem_append.mp he with h | h
          exacts [hm₁ e h, hm₂ e h]
        · intro e he; cases he
      | ok items2 =>
        rcases hF : sync_files o sha source dest file_type
            (to_download (buildMap items1) (buildMap items2)) s₂
          with ⟨r3, s₃⟩
        obtain ⟨Δ₃, hΔ₃, hm₃⟩ := sync_files_trace o sha source dest
          file_type (to_download (buildMap items1) (buildMap items2)) s₂
        rw [hF] at hΔ₃
        cases r3 with
        | error e3 =>
          have hstep : sync_type o sha parse source dest file_type prune s
              = (Except.error e3, s₃) := by
            simp only [sync_type, hL1, hL2, hF]
          rw [hstep, Prod.mk.injEq] at hrun
          refine ⟨Δ₁ ++ Δ₂ ++ Δ₃, [], ?_, ?_, ?_⟩
          · rw [List.append_nil, ← hrun.2, hΔ₃, hΔ₂, hΔ₁]
            simp [List.append_assoc]
          · intro e he
            rcases List.mem_append.mp he with h | h
            · rcases List.mem_append.mp h with h | h
              exacts [hm₁ e h, hm₂ e h]
            · exact hm₃ e h
          · intro e he; cases he
        | ok u3 =>
          cases hp : prune with
          | false =>
            have hstep : sync_type o sha parse source dest file_type prune
                s = (Except.ok (), s₃) := by
              simp [sync_type, hL1, hL2, hF, hp]
            rw [hstep, Prod.mk.injEq] at hrun
            refine ⟨Δ₁ ++ Δ₂ ++ Δ₃, [], ?_, ?_, ?_⟩
            · rw [List.append_nil, ← hrun.2, hΔ₃, hΔ₂, hΔ₁]
              simp [List.append_assoc]
            · intro e he
              rcases List.mem_append.mp he with h | h
              · rcases List.mem_append.mp h with h | h
                exacts [hm₁ e h, hm₂ e h]
              · exact hm₃ e h
            · intro e he; cases he
          | true =>
            rcases hD : delete_files o dest file_type
                (planned_to_delete (buildMap items1) (buildMap items2)
                  true) s₃
              with ⟨r4, s₄⟩
            obtain ⟨Δ₄, hΔ₄, hm₄⟩ := delete_files_trace o dest file_type
              (planned_to_delete (buildMap items1) (buildMap items2) true)
              s₃
            rw [hD] at hΔ₄
            have hstep : sync_type o sha parse source dest file_type prune
                s = (r4, s₄) := by
              simp [sync_type, hL1, hL2, hF, hp, hD]
            rw [hstep, Prod.mk.injEq] at hrun
            refine ⟨Δ₁ ++ Δ₂ ++ Δ₃, Δ₄, ?_, ?_, hm₄⟩
            · rw [← hrun.2, hΔ₄, hΔ₃, hΔ₂, hΔ₁]
              simp [List.append_assoc]
            · intro e he
              rcases List.mem_append.mp he with h | h
              · rcases List.mem_append.mp h with h | h
                exacts [hm₁ e h, hm₂ e h]
              · exact hm₃ e h
  · intro e s' hrun hT
    rcases hL1 : list_files o parse source file_type s with ⟨r1, s₁⟩
    cases r1 with
    | error e1 =>
      have hstep : sync_type o sha parse source dest file_type prune s
          = (Except.error e1, s₁) := by
        simp only [sync_type, hL1]
      rw [hstep, Prod.mk.injEq] at hrun
      have he : e1 = e := by
        have h1 := hrun.1
        simp only [Except.error.injEq] at h1
        exact h1
      rcases list_files_err_shape o parse source file_type s e1 s₁ hL1 with
        ⟨url, st, hsh⟩ | ⟨url, t, hsh⟩
      · rw [← he, hsh] at hT
        simp [isTransferErr] at hT
      · rw [← he, hsh] at hT
        simp [isTransferErr] at hT
    | ok items1 =>
      rcases hL2 : list_files o parse dest file_type s₁ with ⟨r2, s₂⟩
      cases r2 with
      | error e2 =>
        have hstep : sync_type o sha parse source dest file_type prune s
            = (Except.error e2, s₂) := by
          simp only [sync_type, hL1, hL2]
        rw [hstep, Prod.mk.injEq] at hrun
        have he : e2 = e := by
          have h1 := hrun.1
          simp only [Except.error.injEq] at h1
          exact h1
        rcases list_files_err_shape o parse dest file_type s₁ e2 s₂ hL2 with
          ⟨url, st, hsh⟩ | ⟨url, t, hsh⟩
        · rw [← he, hsh] at hT
          simp [isTransferErr] at hT
        · rw [← he, hsh] at hT
          simp [isTransferErr] at hT
      | ok items2 =>
        rcases hF : sync_files o sha source dest file_type
            (to_download (buildMap items1) (buildMap items2)) s₂
          with ⟨r3, s₃⟩
        cases r3 with
        | error e3 =>
          have hstep : sync_type o sha parse source dest file_type prune s
              = (Except.error e3, s₃) := by
            simp only [sync_type, hL1, hL2, hF]
          rw [hstep, Prod.mk.injEq] at hrun
          obtain ⟨Δ₁, hΔ₁, hm₁⟩ := list_files_trace o parse source
            file_type s
          rw [hL1] at hΔ₁
          obtain ⟨Δ₂, hΔ₂, hm₂⟩ := list_files_trace o parse dest file_type
            s₁
          rw [hL2] at hΔ₂
          obtain ⟨Δ₃, hΔ₃, hm₃⟩ := sync_files_trace o sha source dest
            file_type (to_download (buildMap items1) (buildMap items2)) s₂
          rw [hF] at hΔ₃
          intro en hen
          rw [← hrun.2, hΔ₃, hΔ₂, hΔ₁] at hen
          rcases List.mem_append.mp hen with h | h
          · rcases List.mem_append.mp h with h | h
            · rcases List.mem_append.mp h with h | h
              · exact Or.inl h
              · exact Or.inr (hm₁ en h)
            · exact Or.inr (hm₂ en h)
          · exact Or.inr (hm₃ en h)
        | ok u3 =>
          cases hp : prune with
          | false =>
            have hstep : sync_type o sha parse source dest file_type prune
                s = (Except.ok (), s₃) := by
              simp [sync_type, hL1, hL2, hF, hp]
            rw [hstep] at hrun
            simp at hrun
          | true =>
            rcases hD : delete_files o dest file_type
                (planned_to_delete (buildMap items1) (buildMap items2)
                  true) s₃
              with ⟨r4, s₄⟩
            cases r4 with
            | ok u4 =>
              have hstep : sync_type o sha parse source dest file_type
                  prune s = (Except.ok u4, s₄) := by
                simp [sync_type, hL1, hL2, hF, hp, hD]
              rw [hstep] at hrun
              simp at hrun
            | error e4 =>
              have hstep : sync_type o sha parse source dest file_type
                  prune s = (Except.error e4, s₄) := by
                simp [sync_type, hL1, hL2, hF, hp, hD]
              rw [hstep, Prod.mk.injEq] at hrun
              have he : e4 = e := by
                have h1 := hrun.1
                simp only [Except.error.injEq] at h1
                exact h1
              rcases delete_files_err o dest file_type
                  (planned_to_delete (buildMap items1) (buildMap items2)
                    true) s₃ e4 s₄ hD with ⟨url, st, hsh⟩
              rw [← he, hsh] at hT
              simp [isTransferErr] at hT

/-- Witness for C8: a category sync over empty listings (404 at both
ends) decomposes as transfers-then-deletes with both blocks empty; and a
category sync whose single transfer fails to download stops with the
transfer error, its trace containing only the two listing GETs and the
failed object GET — never a DELETE. -/
theorem transfer_before_delete_witness :
    (∃ Δt Δd,
      (⟨2, [(⟨Method.GET, "s/" ++ "data" ++ "/", []⟩, ⟨404, []⟩),
            (⟨Method.GET, "d/" ++ "data" ++ "/", []⟩, ⟨404, []⟩)]⟩ :
          St).trace
        = (⟨0, []⟩ : St).trace ++ Δt ++ Δd
      ∧ (∀ e ∈ Δt, e.1.method ≠ Method.DELETE)
      ∧ (∀ e ∈ Δd, e.1.method = Method.DELETE)) ∧
    (∀ en ∈ [(⟨Method.GET, "s/" ++ "data" ++ "/", []⟩,
               (⟨200, []⟩ : Response)),
             (⟨Method.GET, "d/" ++ "data" ++ "/", []⟩, ⟨404, []⟩),
             (⟨Method.GET, "s/" ++ "data" ++ "/" ++ "a", []⟩, ⟨500, []⟩)],
      en ∈ (⟨0, []⟩ : St).trace ∨
        (en : Request × Response).1.method ≠ Method.DELETE) :=
  ⟨(transfer_before_delete (fun _ _ => ⟨404, []⟩) (fun b => b)
      (fun _ => none) "s/" "d/" "data" true ⟨0, []⟩).1 (Except.ok ())
      ⟨2, [(⟨Method.GET, "s/" ++ "data" ++ "/", []⟩, ⟨404, []⟩),
           (⟨Method.GET, "d/" ++ "data" ++ "/", []⟩, ⟨404, []⟩)]⟩ rfl,
   (transfer_before_delete
      (fun n _ => if n = 0 then ⟨200, []⟩
        else if n = 1 then ⟨404, []⟩ else ⟨500, []⟩)
      (fun b => b) (fun _ => some [⟨"a", 1⟩]) "s/" "d/" "data" true
      ⟨0, []⟩).2
      (Err.downloadFailed ("s/" ++ "data" ++ "/" ++ "a") 500)
      ⟨3, [(⟨Method.GET, "s/" ++ "data" ++ "/", []⟩, ⟨200, []⟩),
           (⟨Method.GET, "d/" ++ "data" ++ "/", []⟩, ⟨404, []⟩),
           (⟨Method.GET, "s/" ++ "data" ++ "/" ++ "a", []⟩, ⟨500, []⟩)]⟩
      rfl rfl⟩

end ResticSync
